import Mathlib

/-!
Verification of the `oprf` package (nthparty/oprf): a commutative
group-masking layer for an oblivious pseudo-random function protocol,
built on the Ristretto group over Curve25519.

The package wraps an external group-arithmetic library (`oblivious`)
declared out of scope by the design: the scalar field and the group are
modelled here by `ZMod ell` where `ell` is the prime order of the
Ristretto group, which is a faithful model of a cyclic group of prime
order together with its scalar field.  The wrapper methods of the two
classes `data` (group element) and `mask` (scalar) are translated
directly from `src/src/oprf/oprf.py`.

The development begins with a Pratt/Lucas primality certificate for
`ell`, needed so that `ZMod ell` is a field (inversion claims).
-/

set_option maxRecDepth 100000
set_option linter.dupNamespace false

namespace Oprf

/-- Fast modular exponentiation with an explicit fuel argument so that the
kernel can evaluate it by structural recursion: `powMod fuel b e m = b ^ e % m`
whenever `e < 2 ^ fuel` and `0 < m`. -/
def powMod : Nat → Nat → Nat → Nat → Nat
  | 0, _, _, m => 1 % m
  | fuel+1, b, e, m =>
    if e = 0 then 1 % m
    else
      let h := powMod fuel b (e / 2) m
      if e % 2 = 0 then h * h % m else h * h * b % m

/-- The order of the Ristretto group over Curve25519, equally the order of
its scalar field: `2 ^ 252 + 27742317777372353535851937790883648493`. -/
abbrev ell : Nat := 7237005577332262213973186563042994240857116359379907606001950938285454250989

instance : NeZero ell := ⟨by norm_num⟩

/-!
## Model of the external group-arithmetic library

The spec (§1, §6) declares the underlying Ristretto/Curve25519 arithmetic
out of scope, consumed through a narrow interface.  A cyclic group of
prime order `ell` together with its scalar field is modelled by `ZMod ell`:
a group element is represented by its discrete logarithm with respect to a
fixed generator, and scalar multiplication of a point is multiplication of
that logarithm in `ZMod ell`.
-/

/-- A group element of the external library's Ristretto point type (`data`
values wrap these), represented by its discrete logarithm to a fixed
generator of the cyclic group of prime order `ell`. -/
structure point where
  log : ZMod ell
deriving DecidableEq

/-- Exceptions surfaced by the package, named after the spec's error
taxonomy (§7): `invalidInputType` is the `TypeError` raised by the `hash`
classmethods on a non-byte-like, non-text argument; `notInvertible` is the
error raised by scalar inversion of zero; `decodingError` covers malformed
Base64 or a byte string failing canonical-encoding validation. -/
inductive PyError where
  | invalidInputType (msg : String)
  | notInvertible
  | decodingError
deriving DecidableEq

/-- Outcome of a Python call: a returned value, or a raised exception. -/
inductive Py (α : Type) where
  | ok (val : α)
  | exn (e : PyError)
deriving DecidableEq

/-- Applying a pure function to the result of a call that may raise. -/
def Py.map {α β : Type} (f : α → β) : Py α → Py β
  | .ok a => .ok (f a)
  | .exn e => .exn e

/-- Sequencing two calls that may raise. -/
def Py.bind {α β : Type} : Py α → (α → Py β) → Py β
  | .ok a, f => f a
  | .exn e, _ => .exn e

/-- A Python value as passed to the dynamically-typed `hash` classmethods:
the byte-like and text cases the source accepts, plus representative
non-byte-like values (a list, an integer, `None`) for the rejection path. -/
inductive PyObj where
  | bytes (bs : List Nat)
  | bytearray (bs : List Nat)
  | str (s : String)
  | intList (xs : List Int)
  | int (n : Int)
  | none
deriving DecidableEq

/-- Translation of `isinstance(argument, (bytes, bytearray, str))`, the
type test guarding both `hash` classmethods. -/
def PyObj.isByteLikeOrText : PyObj → Bool
  | .bytes _ => true
  | .bytearray _ => true
  | .str _ => true
  | _ => false

/-- UTF-8 encoding of a single code point, as Python's `str.encode()`
produces it. -/
def utf8Char (c : Nat) : List Nat :=
  if c < 0x80 then [c]
  else if c < 0x800 then [0xC0 + c / 0x40, 0x80 + c % 0x40]
  else if c < 0x10000 then [0xE0 + c / 0x1000, 0x80 + c / 0x40 % 0x40, 0x80 + c % 0x40]
  else [0xF0 + c / 0x40000, 0x80 + c / 0x1000 % 0x40, 0x80 + c / 0x40 % 0x40, 0x80 + c % 0x40]

/-- Translation of Python's `argument.encode()`: UTF-8 bytes of a string. -/
def strEncode (s : String) : List Nat := s.data.flatMap (fun c => utf8Char c.toNat)

/-- Translation of `argument.encode() if isinstance(argument, str) else
argument`, preceded by the `isinstance` guard of the `hash` classmethods:
the byte content a byte-like or text argument contributes, `none` for every
other argument. -/
def PyObj.toByteInput : PyObj → Option (List Nat)
  | .bytes bs => some bs
  | .bytearray bs => some bs
  | .str s => some (strEncode s)
  | _ => Option.none

/-- Little-endian value of a byte string. -/
def bytesToNatLE : List Nat → Nat
  | [] => 0
  | b :: rest => b + 256 * bytesToNatLE rest

/-- Little-endian byte string of length `k` of a value. -/
def natToBytesLE : Nat → Nat → List Nat
  | 0, _ => []
  | k+1, v => v % 256 :: natToBytesLE k (v / 256)

namespace ristretto

/-- Modelled from the spec: `hashToPoint` of the external group-arithmetic
library (§6), missing from `src/` because it is out of scope (§1).  Only
determinism is relied on by any claim; the map is modelled as an
unspecified deterministic function of the input bytes. -/
def pointHash (bs : List Nat) : point := ⟨(bytesToNatLE bs : ZMod ell)⟩

/-- Modelled from the spec: `hashToScalar` of the external library (§6),
deterministic hash-to-field; as with `pointHash`, only determinism is
relied on. -/
def scalarHash (bs : List Nat) : ZMod ell := (bytesToNatLE bs : ZMod ell)

/-- Modelled from the spec: `scalarInverse` of the external library (§6),
field inversion, erroring on zero (`NotInvertibleError`, §7). -/
def scalarInverse (s : ZMod ell) : Py (ZMod ell) :=
  if s = 0 then .exn .notInvertible else .ok s⁻¹

/-- Modelled from the spec: `scalarMulPoint` of the external library (§6),
the group action of the scalar field on the group. -/
def scalarMulPoint (s : ZMod ell) (p : point) : point := ⟨s * p.log⟩

end ristretto

/-!
## Translation of the wrapper classes

Each definition below translates one method of `src/src/oprf/oprf.py`
(line numbers in the doc comments).
-/

namespace mask

/-- `mask.hash` (lines 101–122): type-check the argument, UTF-8 encode a
string, and hash into the scalar field. -/
def hash (argument : PyObj) : Py (ZMod ell) :=
  match argument.toByteInput with
  | some bs => .ok (ristretto.scalarHash bs)
  | Option.none =>
      .exn (.invalidInputType ("can only hash a string or bytes-like object to a mask object"))

/-- `mask.__invert__` (lines 149–162): inversion via the library's scalar
inversion. -/
def invert (m : ZMod ell) : Py (ZMod ell) := ristretto.scalarInverse m

/-- `mask.mask` (lines 164–174): scalar multiplication of the data object
by this mask. -/
def mask (m : ZMod ell) (d : point) : point := ristretto.scalarMulPoint m d

/-- `mask.__call__` (lines 176–186): identical body to `mask.mask`. -/
def call (m : ZMod ell) (d : point) : point := ristretto.scalarMulPoint m d

/-- `mask.__mul__` (lines 188–198): identical body to `mask.mask`. -/
def mul (m : ZMod ell) (d : point) : point := ristretto.scalarMulPoint m d

/-- `mask.unmask` (lines 200–210): `data(scalar(~self) * argument)` —
invert this mask (which may raise), then scalar-multiply the argument. -/
def unmask (m : ZMod ell) (d : point) : Py point :=
  (invert m).map (fun mi => ristretto.scalarMulPoint mi d)

end mask

namespace data

/-- `data.hash` (lines 16–37): type-check the argument, UTF-8 encode a
string, and hash into the group. -/
def hash (argument : PyObj) : Py point :=
  match argument.toByteInput with
  | some bs => .ok (ristretto.pointHash bs)
  | Option.none =>
      .exn (.invalidInputType ("can only hash a string or bytes-like object to a data object"))

/-- `data.__truediv__` (lines 64–74): `data((~argument) * self)` — invert
the mask (which may raise), then apply `mask.__mul__` to this data
object. -/
def truediv (d : point) (m : ZMod ell) : Py point :=
  (mask.invert m).map (fun mi => mask.mul mi d)

end data

/-- Follows the spec's words (§4.2) for `unmask(data)`: "returns
`invert(self) * data`" — named so it can be compared with the translated
`mask.unmask` and `data.__truediv__`. -/
def unmaskSpec (m : ZMod ell) (d : point) : Py point :=
  (mask.invert m).map (fun mi => mask.mask mi d)

/-- Whether a call returned a value (as opposed to raising). -/
def Py.isOk {α : Type} : Py α → Bool
  | .ok _ => true
  | .exn _ => false

/-!
## Base64 serialization

`to_base64` in the source is standard Base64 with `=` padding of the
32-byte canonical encoding; `from_base64` decodes and validates through
the library.
-/

/-- The standard Base64 alphabet (RFC 4648). -/
def b64Alphabet : List Char :=
  ['A','B','C','D','E','F','G','H','I','J','K','L','M',
   'N','O','P','Q','R','S','T','U','V','W','X','Y','Z',
   'a','b','c','d','e','f','g','h','i','j','k','l','m',
   'n','o','p','q','r','s','t','u','v','w','x','y','z',
   '0','1','2','3','4','5','6','7','8','9','+','/']

/-- Character encoding a six-bit group. -/
def sextetChar (n : Nat) : Char := b64Alphabet.getD n '?'

/-- Index of a character in a character list. -/
def charIndex (c : Char) : List Char → Option Nat
  | [] => Option.none
  | a :: rest => if a = c then some 0 else (charIndex c rest).map (· + 1)

/-- Six-bit value of a Base64 alphabet character. -/
def sextetVal (c : Char) : Option Nat := charIndex c b64Alphabet

/-- Standard Base64 encoding with `=` padding of a byte string, as
Python's `base64.standard_b64encode` produces. -/
def b64Encode : List Nat → List Char
  | [] => []
  | [a] => [sextetChar (a / 4), sextetChar (a % 4 * 16), '=', '=']
  | [a, b] => [sextetChar (a / 4), sextetChar (a % 4 * 16 + b / 16), sextetChar (b % 16 * 4), '=']
  | a :: b :: c :: rest =>
      sextetChar (a / 4) :: sextetChar (a % 4 * 16 + b / 16) ::
        sextetChar (b % 16 * 4 + c / 64) :: sextetChar (c % 64) :: b64Encode rest

/-- Standard Base64 decoding, `Option.none` on malformed input. -/
def b64Decode : List Char → Option (List Nat)
  | [] => some []
  | c1 :: c2 :: c3 :: c4 :: rest =>
      match sextetVal c1, sextetVal c2 with
      | some s1, some s2 =>
        if c3 = '=' then
          if c4 = '=' ∧ rest = [] then some [s1 * 4 + s2 / 16] else Option.none
        else
          match sextetVal c3 with
          | some s3 =>
            if c4 = '=' then
              if rest = [] then some [s1 * 4 + s2 / 16, s2 % 16 * 16 + s3 / 4] else Option.none
            else
              match sextetVal c4 with
              | some s4 =>
                match b64Decode rest with
                | some bs =>
                    some ((s1 * 4 + s2 / 16) :: (s2 % 16 * 16 + s3 / 4) ::
                      (s3 % 4 * 64 + s4) :: bs)
                | Option.none => Option.none
              | Option.none => Option.none
          | Option.none => Option.none
      | _, _ => Option.none
  | _ => Option.none

theorem sextet_round : ∀ s, s < 64 → sextetVal (sextetChar s) = some s := by
  decide

theorem sextet_ne_pad : ∀ s, s < 64 → sextetChar s ≠ '=' := by
  decide

/-- Base64 decoding inverts Base64 encoding on byte strings. -/
theorem b64_round : ∀ (bs : List Nat), (∀ x ∈ bs, x < 256) →
    b64Decode (b64Encode bs) = some bs := by
  intro bs
  induction bs using b64Encode.induct with
  | case1 =>
    intro _
    rfl
  | case2 a =>
    intro h
    have ha : a < 256 := h a (by simp)
    have h1 := sextet_round (a / 4) (by omega)
    have h2 := sextet_round (a % 4 * 16) (by omega)
    simp only [b64Encode, b64Decode, h1, h2, if_pos rfl, and_self, ite_true]
    have : a / 4 * 4 + a % 4 * 16 / 16 = a := by omega
    rw [this]
  | case3 a b =>
    intro h
    have ha : a < 256 := h a (by simp)
    have hb : b < 256 := h b (by simp)
    have h1 := sextet_round (a / 4) (by omega)
    have h2 := sextet_round (a % 4 * 16 + b / 16) (by omega)
    have h3 := sextet_round (b % 16 * 4) (by omega)
    have hne := sextet_ne_pad (b % 16 * 4) (by omega)
    simp only [b64Encode, b64Decode, h1, h2, h3, if_neg hne, if_pos rfl, ite_true]
    have e1 : a / 4 * 4 + (a % 4 * 16 + b / 16) / 16 = a := by omega
    have e2 : (a % 4 * 16 + b / 16) % 16 * 16 + b % 16 * 4 / 4 = b := by omega
    rw [e1, e2]
  | case4 a b c rest ih =>
    intro h
    have ha : a < 256 := h a (by simp)
    have hb : b < 256 := h b (by simp)
    have hc : c < 256 := h c (by simp)
    have hrest : ∀ x ∈ rest, x < 256 := fun x hx => h x (by simp [hx])
    have h1 := sextet_round (a / 4) (by omega)
    have h2 := sextet_round (a % 4 * 16 + b / 16) (by omega)
    have h3 := sextet_round (b % 16 * 4 + c / 64) (by omega)
    have h4 := sextet_round (c % 64) (by omega)
    have hne3 := sextet_ne_pad (b % 16 * 4 + c / 64) (by omega)
    have hne4 := sextet_ne_pad (c % 64) (by omega)
    simp only [b64Encode, b64Decode, h1, h2, h3, h4, if_neg hne3, if_neg hne4, ih hrest]
    have e1 : a / 4 * 4 + (a % 4 * 16 + b / 16) / 16 = a := by omega
    have e2 : (a % 4 * 16 + b / 16) % 16 * 16 + (b % 16 * 4 + c / 64) / 4 = b := by omega
    have e3 : (b % 16 * 4 + c / 64) % 4 * 64 + c % 64 = c := by omega
    rw [e1, e2, e3]

theorem natToBytesLE_length : ∀ (k v : Nat), (natToBytesLE k v).length = k := by
  intro k
  induction k with
  | zero => intro v; rfl
  | succ k ih => intro v; simp [natToBytesLE, ih]

theorem natToBytesLE_bytes : ∀ (k v : Nat), ∀ x ∈ natToBytesLE k v, x < 256 := by
  intro k
  induction k with
  | zero => intro v x hx; simp [natToBytesLE] at hx
  | succ k ih =>
    intro v x hx
    simp only [natToBytesLE, List.mem_cons] at hx
    rcases hx with h | h
    · omega
    · exact ih (v / 256) x h

theorem bytesToNatLE_natToBytesLE : ∀ (k v : Nat), v < 256 ^ k →
    bytesToNatLE (natToBytesLE k v) = v := by
  intro k
  induction k with
  | zero =>
    intro v hv
    simp only [pow_zero, Nat.lt_one_iff] at hv
    simp [natToBytesLE, bytesToNatLE, hv]
  | succ k ih =>
    intro v hv
    have hdiv : v / 256 < 256 ^ k := by
      rw [Nat.div_lt_iff_lt_mul (by norm_num)]
      calc v < 256 ^ (k + 1) := hv
        _ = 256 ^ k * 256 := by ring
    simp only [natToBytesLE, bytesToNatLE, ih (v / 256) hdiv]
    omega


/-- `mask.to_base64` (lines 212–220): Base64 of the canonical 32-byte
little-endian encoding of the scalar. -/
def mask.to_base64 (m : ZMod ell) : String := ⟨b64Encode (natToBytesLE 32 m.val)⟩

/-- `mask.from_base64` (lines 124–134): Base64-decode and validate as a
canonically reduced scalar; the validation (`validateScalar`, spec §6) is
modelled from the spec: exactly the 32-byte little-endian encodings of
values below `ell` are accepted, anything else raises the decoding
error. -/
def mask.from_base64 (s : String) : Py (ZMod ell) :=
  match b64Decode s.data with
  | some bs =>
      if bs.length = 32 ∧ bytesToNatLE bs < ell
      then .ok ((bytesToNatLE bs : Nat) : ZMod ell)
      else .exn .decodingError
  | Option.none => .exn .decodingError

/-- `data.to_base64` (lines 76–84): Base64 of the canonical 32-byte
encoding of the group element.  Modelled from the spec: the external
library's canonical point encoding (§6, out of scope per §1) is modelled
as the little-endian encoding of the discrete logarithm; the spec's
contract is only that the encoding is canonical, injective and
round-trip-safe. -/
def data.to_base64 (d : point) : String := ⟨b64Encode (natToBytesLE 32 d.log.val)⟩

/-- `data.from_base64` (lines 39–49): Base64-decode and validate as a
group element (`validatePoint`, spec §6), modelled from the spec in the
same way as `mask.from_base64`. -/
def data.from_base64 (s : String) : Py point :=
  match b64Decode s.data with
  | some bs =>
      if bs.length = 32 ∧ bytesToNatLE bs < ell
      then .ok ⟨((bytesToNatLE bs : Nat) : ZMod ell)⟩
      else .exn .decodingError
  | Option.none => .exn .decodingError

/-!
## Byte-level model of the external library's hash functions

The concrete-vector claim pins the exact 32-byte outputs of hashing the
string `"abc"` into the group and into the scalar field.  Those bytes are
produced inside the external `oblivious` library (out of scope per spec
§1), so the two hash functions are modelled here at byte level, from the
spec's identification of the target group (§1: Ristretto over Curve25519):
hash-to-group is the ristretto255 element derivation (RFC 9496) applied to
the SHA-512 digest of the input, and hash-to-scalar iterates SHA-256,
clamps the digest's top three bits, and accepts once the value is a
canonical scalar.  Both are validated below against the pinned vectors.
-/

/-- SHA-256 round constants (FIPS 180-4). -/
def sha256K : List Nat := [1116352408, 1899447441, 3049323471, 3921009573, 961987163, 1508970993, 2453635748, 2870763221, 3624381080, 310598401, 607225278, 1426881987, 1925078388, 2162078206, 2614888103, 3248222580, 3835390401, 4022224774, 264347078, 604807628, 770255983, 1249150122, 1555081692, 1996064986, 2554220882, 2821834349, 2952996808, 3210313671, 3336571891, 3584528711, 113926993, 338241895, 666307205, 773529912, 1294757372, 1396182291, 1695183700, 1986661051, 2177026350, 2456956037, 2730485921, 2820302411, 3259730800, 3345764771, 3516065817, 3600352804, 4094571909, 275423344, 430227734, 506948616, 659060556, 883997877, 958139571, 1322822218, 1537002063, 1747873779, 1955562222, 2024104815, 2227730452, 2361852424, 2428436474, 2756734187, 3204031479, 3329325298]

/-- SHA-512 round constants (FIPS 180-4). -/
def sha512K : List Nat := [4794697086780616226, 8158064640168781261, 13096744586834688815, 16840607885511220156, 4131703408338449720, 6480981068601479193, 10538285296894168987, 12329834152419229976, 15566598209576043074, 1334009975649890238, 2608012711638119052, 6128411473006802146, 8268148722764581231, 9286055187155687089, 11230858885718282805, 13951009754708518548, 16472876342353939154, 17275323862435702243, 1135362057144423861, 2597628984639134821, 3308224258029322869, 5365058923640841347, 6679025012923562964, 8573033837759648693, 10970295158949994411, 12119686244451234320, 12683024718118986047, 13788192230050041572, 14330467153632333762, 15395433587784984357, 489312712824947311, 1452737877330783856, 2861767655752347644, 3322285676063803686, 5560940570517711597, 5996557281743188959, 7280758554555802590, 8532644243296465576, 9350256976987008742, 10552545826968843579, 11727347734174303076, 12113106623233404929, 14000437183269869457, 14369950271660146224, 15101387698204529176, 15463397548674623760, 17586052441742319658, 1182934255886127544, 1847814050463011016, 2177327727835720531, 2830643537854262169, 3796741975233480872, 4115178125766777443, 5681478168544905931, 6601373596472566643, 7507060721942968483, 8399075790359081724, 8693463985226723168, 9568029438360202098, 10144078919501101548, 10430055236837252648, 11840083180663258601, 13761210420658862357, 14299343276471374635, 14566680578165727644, 15097957966210449927, 16922976911328602910, 17689382322260857208, 500013540394364858, 748580250866718886, 1242879168328830382, 1977374033974150939, 2944078676154940804, 3659926193048069267, 4368137639120453308, 4836135668995329356, 5532061633213252278, 6448918945643986474, 6902733635092675308, 7801388544844847127]

/-- Word size moduli for the two SHA-2 variants. -/
def M32 : Nat := 4294967296

def M64 : Nat := 18446744073709551616

/-- Right rotation of a 32-bit word. -/
def rotr32 (n x : Nat) : Nat := x / 2 ^ n + x % 2 ^ n * 2 ^ (32 - n)

/-- Right rotation of a 64-bit word. -/
def rotr64 (n x : Nat) : Nat := x / 2 ^ n + x % 2 ^ n * 2 ^ (64 - n)

/-- SHA-2 choice function. -/
def ch32 (x y z : Nat) : Nat := (x &&& y) ^^^ ((x ^^^ 4294967295) &&& z)

def ch64 (x y z : Nat) : Nat := (x &&& y) ^^^ ((x ^^^ 18446744073709551615) &&& z)

/-- SHA-2 majority function. -/
def maj (x y z : Nat) : Nat := (x &&& y) ^^^ (x &&& z) ^^^ (y &&& z)

def bsig0 (x : Nat) : Nat := rotr32 2 x ^^^ rotr32 13 x ^^^ rotr32 22 x

def bsig1 (x : Nat) : Nat := rotr32 6 x ^^^ rotr32 11 x ^^^ rotr32 25 x

def ssig0 (x : Nat) : Nat := rotr32 7 x ^^^ rotr32 18 x ^^^ (x >>> 3)

def ssig1 (x : Nat) : Nat := rotr32 17 x ^^^ rotr32 19 x ^^^ (x >>> 10)

def bsig0L (x : Nat) : Nat := rotr64 28 x ^^^ rotr64 34 x ^^^ rotr64 39 x

def bsig1L (x : Nat) : Nat := rotr64 14 x ^^^ rotr64 18 x ^^^ rotr64 41 x

def ssig0L (x : Nat) : Nat := rotr64 1 x ^^^ rotr64 8 x ^^^ (x >>> 7)

def ssig1L (x : Nat) : Nat := rotr64 19 x ^^^ rotr64 61 x ^^^ (x >>> 6)

/-- Big-endian byte string of length `k` of a value. -/
def toBE : Nat → Nat → List Nat
  | 0, _ => []
  | k+1, v => toBE k (v / 256) ++ [v % 256]

/-- SHA-2 message padding: append `0x80`, zeros, and the bit length on
`lenBytes` big-endian bytes, up to a multiple of the block size `blk`. -/
def sha2Pad (blk lenBytes : Nat) (bs : List Nat) : List Nat :=
  bs ++ 128 :: List.replicate ((2 * blk - lenBytes - 1 - bs.length % blk) % blk) 0
    ++ toBE lenBytes (8 * bs.length)

/-- Big-endian 32-bit words of a byte string. -/
def words4 : List Nat → List Nat
  | a :: b :: c :: d :: rest => (a * 16777216 + b * 65536 + c * 256 + d) :: words4 rest
  | _ => []

/-- Big-endian 64-bit words of a byte string. -/
def words8 : List Nat → List Nat
  | a :: b :: c :: d :: e :: f :: g :: h :: rest =>
      (((((((a * 256 + b) * 256 + c) * 256 + d) * 256 + e) * 256 + f) * 256 + g) * 256 + h)
        :: words8 rest
  | _ => []

/-- SHA-256 message-schedule extension: `n` further words from a sliding
16-word window. -/
def sched256 : Nat → List Nat → List Nat
  | 0, _ => []
  | n+1, ws =>
      let w16 := (ssig1 (ws.getD 14 0) + ws.getD 9 0 + ssig0 (ws.getD 1 0) + ws.getD 0 0) % M32
      w16 :: sched256 n (ws.drop 1 ++ [w16])

/-- SHA-512 message-schedule extension. -/
def sched512 : Nat → List Nat → List Nat
  | 0, _ => []
  | n+1, ws =>
      let w16 := (ssig1L (ws.getD 14 0) + ws.getD 9 0 + ssig0L (ws.getD 1 0) + ws.getD 0 0) % M64
      w16 :: sched512 n (ws.drop 1 ++ [w16])

/-- SHA-256 compression rounds over the zipped round constants and message
schedule, carrying the eight working variables as a list. -/
def rounds256 : List (Nat × Nat) → List Nat → List Nat
  | [], st => st
  | (k, w) :: rest, st =>
      match st with
      | [a, b, c, d, e, f, g, h] =>
          let t1 := (h + bsig1 e + ch32 e f g + k + w) % M32
          let t2 := (bsig0 a + maj a b c) % M32
          rounds256 rest [(t1 + t2) % M32, a, b, c, (d + t1) % M32, e, f, g]
      | st => st

/-- SHA-512 compression rounds. -/
def rounds512 : List (Nat × Nat) → List Nat → List Nat
  | [], st => st
  | (k, w) :: rest, st =>
      match st with
      | [a, b, c, d, e, f, g, h] =>
          let t1 := (h + bsig1L e + ch64 e f g + k + w) % M64
          let t2 := (bsig0L a + maj a b c) % M64
          rounds512 rest [(t1 + t2) % M64, a, b, c, (d + t1) % M64, e, f, g]
      | st => st

/-- Pointwise modular addition of hash states. -/
def addState (m : Nat) : List Nat → List Nat → List Nat
  | a :: as', b :: bs' => (a + b) % m :: addState m as' bs'
  | _, _ => []

/-- One SHA-256 block step. -/
def sha256Block (st ws16 : List Nat) : List Nat :=
  addState M32 st (rounds256 (sha256K.zip (ws16 ++ sched256 48 ws16)) st)

/-- One SHA-512 block step. -/
def sha512Block (st ws16 : List Nat) : List Nat :=
  addState M64 st (rounds512 (sha512K.zip (ws16 ++ sched512 64 ws16)) st)

/-- Fold SHA-256 block steps over the padded message's 16-word blocks. -/
def sha256Blocks : List Nat → List Nat → List Nat
  | st, w0 :: w1 :: w2 :: w3 :: w4 :: w5 :: w6 :: w7 :: w8 :: w9 :: w10 :: w11 ::
      w12 :: w13 :: w14 :: w15 :: rest =>
      sha256Blocks
        (sha256Block st [w0, w1, w2, w3, w4, w5, w6, w7, w8, w9, w10, w11, w12, w13, w14, w15])
        rest
  | st, _ => st

/-- Fold SHA-512 block steps. -/
def sha512Blocks : List Nat → List Nat → List Nat
  | st, w0 :: w1 :: w2 :: w3 :: w4 :: w5 :: w6 :: w7 :: w8 :: w9 :: w10 :: w11 ::
      w12 :: w13 :: w14 :: w15 :: rest =>
      sha512Blocks
        (sha512Block st [w0, w1, w2, w3, w4, w5, w6, w7, w8, w9, w10, w11, w12, w13, w14, w15])
        rest
  | st, _ => st

/-- SHA-256 digest (32 bytes) of a byte string. -/
def sha256Bytes (bs : List Nat) : List Nat :=
  (sha256Blocks [1779033703, 3144134277, 1013904242, 2773480762, 1359893119, 2600822924,
      528734635, 1541459225]
    (words4 (sha2Pad 64 8 bs))).flatMap (toBE 4)

/-- SHA-512 digest (64 bytes) of a byte string. -/
def sha512Bytes (bs : List Nat) : List Nat :=
  (sha512Blocks [7640891576956012808, 13503953896175478587, 4354685564936845355,
      11912009170470909681, 5840696475078001361, 11170449401992604703, 2270897969802886507,
      6620516959819538809]
    (words8 (sha2Pad 128 16 bs))).flatMap (toBE 8)

/-- The prime `2 ^ 255 - 19` of the Curve25519 base field. -/
def P25519 : Nat := 57896044618658097711785492504343953926634992332820282019728792003956564819949

def fmul (x y : Nat) : Nat := x * y % P25519

def fadd (x y : Nat) : Nat := (x + y) % P25519

def fsub (x y : Nat) : Nat := (x + P25519 - y % P25519) % P25519

def fneg (x : Nat) : Nat := (P25519 - x % P25519) % P25519

def fpow (b e : Nat) : Nat := powMod 255 b e P25519

/-- The Edwards curve constant `d = -121665/121666` (RFC 9496). -/
def dEdwards : Nat := 37095705934669439343138083508754565189542113879843219016388785533085940283555

/-- A square root of `-1` in the base field (RFC 9496 `SQRT_M1`). -/
def sqrtM1 : Nat := 19681161376707505956807079304988542015446066515923890162744021073123829784752

/-- The ristretto255 constant `SQRT_AD_MINUS_ONE` (RFC 9496). -/
def sqrtAdMinusOne : Nat := 25063068953384623474111414158702152701244531502492656460079210482610430750235

/-- The ristretto255 constant `INVSQRT_A_MINUS_D` (RFC 9496). -/
def invsqrtAMinusD : Nat := 54469307008909316920995813868745141605393597292927456921205312896311721017578

/-- The ristretto255 constant `ONE_MINUS_D_SQ` (RFC 9496). -/
def oneMinusDSq : Nat := 1159843021668779879193775521855586647937357759715417654439879720876111806838

/-- The ristretto255 constant `D_MINUS_ONE_SQ` (RFC 9496). -/
def dMinusOneSq : Nat := 40440834346308536858101042469323190826248399146238708352240133220865137265952

/-- The ristretto255 `CT_ABS`: the even (non-negative) one of `x` and `-x`. -/
def ctAbs (x : Nat) : Nat := if x % P25519 % 2 == 1 then fneg x else x % P25519

/-- The ristretto255 `SQRT_RATIO_M1` (RFC 9496 §4.2): whether `u/v` is a
square, together with the canonical root of `u/v` or of `SQRT_M1 * u/v`. -/
def sqrtRatioM1 (u v : Nat) : Bool × Nat :=
  let v3 := fmul (fmul v v) v
  let v7 := fmul (fmul v3 v3) v
  let r0 := fmul (fmul u v3)
    (fpow (fmul u v7) 7237005577332262213973186563042994240829374041602535252466099000494570602493)
  let check := fmul v (fmul r0 r0)
  let correct := check == u % P25519
  let flipped := check == fneg u
  let flippedI := check == fmul (fneg u) sqrtM1
  let r1 := if flipped || flippedI then fmul r0 sqrtM1 else r0
  (correct || flipped, ctAbs r1)

/-- A point of the twisted Edwards curve in extended coordinates. -/
structure ePoint where
  ex : Nat
  ey : Nat
  ez : Nat
  et : Nat
deriving DecidableEq

/-- The ristretto255 `MAP` function (RFC 9496 §4.3.4). -/
def mapToCurve (t : Nat) : ePoint :=
  let r := fmul sqrtM1 (fmul t t)
  let u := fmul (fadd r 1) oneMinusDSq
  let v := fmul (fsub (fneg 1) (fmul r dEdwards)) (fadd r dEdwards)
  let ws := sqrtRatioM1 u v
  let s := if ws.1 then ws.2 else fneg (ctAbs (fmul ws.2 t))
  let c := if ws.1 then fneg 1 else r
  let n := fsub (fmul (fmul c (fsub r 1)) dMinusOneSq) v
  let w0 := fmul (fadd s s) v
  let w1 := fmul n sqrtAdMinusOne
  let w2 := fsub 1 (fmul s s)
  let w3 := fadd 1 (fmul s s)
  ⟨fmul w0 w3, fmul w2 w1, fmul w1 w3, fmul w0 w2⟩

/-- Twisted Edwards addition in extended coordinates (`a = -1`). -/
def edwardsAdd (p q : ePoint) : ePoint :=
  let a := fmul (fsub p.ey p.ex) (fsub q.ey q.ex)
  let b := fmul (fadd p.ey p.ex) (fadd q.ey q.ex)
  let c := fmul (fmul (fadd p.et p.et) dEdwards) q.et
  let d := fmul (fadd p.ez p.ez) q.ez
  let e := fsub b a
  let f := fsub d c
  let g := fadd d c
  let h := fadd b a
  ⟨fmul e f, fmul g h, fmul f g, fmul e h⟩

/-- The ristretto255 canonical encoding of a group element (RFC 9496
§4.3.2), as 32 little-endian bytes. -/
def encodePoint (p : ePoint) : List Nat :=
  let u1 := fmul (fadd p.ez p.ey) (fsub p.ez p.ey)
  let u2 := fmul p.ex p.ey
  let invsqrt := (sqrtRatioM1 1 (fmul u1 (fmul u2 u2))).2
  let den1 := fmul invsqrt u1
  let den2 := fmul invsqrt u2
  let zInv := fmul (fmul den1 den2) p.et
  let ix0 := fmul p.ex sqrtM1
  let iy0 := fmul p.ey sqrtM1
  let enchanted := fmul den1 invsqrtAMinusD
  let rotate := fmul p.et zInv % 2 == 1
  let x := if rotate then iy0 else p.ex % P25519
  let y := if rotate then ix0 else p.ey % P25519
  let denInv := if rotate then enchanted else den2
  let y1 := if fmul x zInv % 2 == 1 then fneg y else y
  let s := ctAbs (fmul denInv (fsub p.ez y1))
  natToBytesLE 32 s

/-- The ristretto255 element derivation from 64 uniform bytes (RFC 9496
§4.3.4): apply `MAP` to the low 255 bits of each 32-byte half and add the
two curve points. -/
def fromUniform (bs : List Nat) : ePoint :=
  edwardsAdd
    (mapToCurve (bytesToNatLE (bs.take 32)
      % 57896044618658097711785492504343953926634992332820282019728792003956564819968
      % P25519))
    (mapToCurve (bytesToNatLE (bs.drop 32)
      % 57896044618658097711785492504343953926634992332820282019728792003956564819968
      % P25519))

/-- Modelled from the spec: the external library's hash-to-group (§6) at
byte level, missing from `src/` because it is out of scope (§1); it is the
ristretto255 element derivation applied to the SHA-512 digest of the
input, per the spec's identification of the target group, and is validated
against the spec's pinned vector below. -/
def pointHashBytes (bs : List Nat) : List Nat := encodePoint (fromUniform (sha512Bytes bs))

/-- Clamp a 32-byte digest's top three bits, the scalar clamping the
external library applies before its canonicality test. -/
def maskDigest (h : List Nat) : List Nat := h.take 31 ++ [h.getD 31 0 &&& 31]

/-- Iterate SHA-256 on the raw digest until the clamped digest is a
canonical scalar (value below `ell`); the fuel bounds the search, which for
the pinned vectors ends within three steps. -/
def scalarFromDigest : Nat → List Nat → List Nat
  | 0, h => maskDigest h
  | fuel+1, h =>
      let m := maskDigest h
      if bytesToNatLE m < ell then m else scalarFromDigest fuel (sha256Bytes h)

/-- Modelled from the spec: the external library's hash-to-scalar (§6) at
byte level, missing from `src/` because it is out of scope (§1); SHA-256
iterated to a clamped canonical scalar, validated against the spec's
pinned vector below. -/
def scalarHashBytes (bs : List Nat) : List Nat := scalarFromDigest 32 (sha256Bytes bs)

/-!
## Number-theoretic facts: primality of the group order
-/

theorem powMod_correct : ∀ (fuel e : Nat), e < 2 ^ fuel → ∀ (b m : Nat), 0 < m →
    powMod fuel b e m = b ^ e % m := by
  intro fuel
  induction fuel with
  | zero =>
    intro e he b m _
    have : e = 0 := by simpa using Nat.lt_one_iff.mp (by simpa using he)
    subst this
    simp [powMod]
  | succ fuel ih =>
    intro e he b m hm
    by_cases he0 : e = 0
    · subst he0; simp [powMod]
    · have hdiv : e / 2 < 2 ^ fuel := by
        have h2 : e < 2 ^ fuel * 2 := by
          have : (2 : Nat) ^ (fuel + 1) = 2 ^ fuel * 2 := by ring
          omega
        exact Nat.div_lt_of_lt_mul (by omega)
      have hrec : powMod fuel b (e / 2) m = b ^ (e / 2) % m := ih (e / 2) hdiv b m hm
      have hcong : powMod fuel b (e / 2) m ≡ b ^ (e / 2) [MOD m] := by
        rw [hrec]; exact Nat.mod_modEq _ _
      by_cases hpar : e % 2 = 0
      · have heq : e / 2 + e / 2 = e := by omega
        have h1 : powMod fuel b (e / 2) m * powMod fuel b (e / 2) m
            ≡ b ^ (e / 2) * b ^ (e / 2) [MOD m] := hcong.mul hcong
        have h2 : b ^ (e / 2) * b ^ (e / 2) = b ^ e := by
          rw [← pow_add, heq]
        simp only [powMod, he0, if_false, hpar, if_true]
        calc powMod fuel b (e / 2) m * powMod fuel b (e / 2) m % m
            = b ^ (e / 2) * b ^ (e / 2) % m := h1
          _ = b ^ e % m := by rw [h2]
      · have heq : e / 2 + e / 2 + 1 = e := by omega
        have h1 : powMod fuel b (e / 2) m * powMod fuel b (e / 2) m * b
            ≡ b ^ (e / 2) * b ^ (e / 2) * b [MOD m] := (hcong.mul hcong).mul_right b
        have h2 : b ^ (e / 2) * b ^ (e / 2) * b = b ^ e := by
          rw [← pow_add, ← pow_succ, heq]
        simp only [powMod, he0, if_false, hpar, if_false]
        calc powMod fuel b (e / 2) m * powMod fuel b (e / 2) m * b % m
            = b ^ (e / 2) * b ^ (e / 2) * b % m := h1
          _ = b ^ e % m := by rw [h2]

/-- Evaluating `powMod` decides whether `a ^ e = 1` in `ZMod p`. -/
theorem powMod_eq_one_iff (F a e p : Nat) (hp : 1 < p) (he : e < 2 ^ F) :
    powMod F a e p = 1 ↔ (a : ZMod p) ^ e = 1 := by
  rw [powMod_correct F e he a p (by omega)]
  constructor
  · intro h
    have h1 : ((a ^ e % p : Nat) : ZMod p) = ((1 : Nat) : ZMod p) := by rw [h]
    rw [ZMod.natCast_mod, Nat.cast_pow, Nat.cast_one] at h1
    exact h1
  · intro h
    have h1 : ((a ^ e : Nat) : ZMod p) = ((1 : Nat) : ZMod p) := by
      rw [Nat.cast_pow, Nat.cast_one]; exact h
    have h2 := (ZMod.natCast_eq_natCast_iff' _ _ _).mp h1
    rwa [Nat.mod_eq_of_lt hp] at h2

/-- Any prime dividing a product of prime powers is one of the listed bases. -/
theorem prime_mem_of_dvd_prodPow (q : Nat) (hq : Nat.Prime q) :
    ∀ (L : List (Nat × Nat)),
      q ∣ (L.map (fun pe => pe.1 ^ pe.2)).prod →
      (∀ pe ∈ L, Nat.Prime pe.1) → q ∈ L.map Prod.fst := by
  intro L
  induction L with
  | nil =>
    intro hdvd _
    simp only [List.map_nil, List.prod_nil] at hdvd
    exact absurd (Nat.dvd_one.mp hdvd) hq.ne_one
  | cons pe rest ih =>
    intro hdvd hprimes
    simp only [List.map_cons, List.prod_cons] at hdvd
    simp only [List.map_cons, List.mem_cons]
    rcases (Nat.Prime.dvd_mul hq).mp hdvd with h | h
    · left
      have hdp : q ∣ pe.1 := hq.dvd_of_dvd_pow h
      exact (Nat.prime_dvd_prime_iff_eq hq (hprimes pe (List.mem_cons_self _ _))).mp hdp
    · right
      exact ih h (fun x hx => hprimes x (List.mem_cons_of_mem _ hx))

/-- Lucas primality certificate checker: a witness `a` of order `p - 1`
together with the full factorization of `p - 1` proves `p` prime, with all
modular powers computed through the kernel-evaluable `powMod`. -/
theorem prime_of_cert (F p a : Nat) (L : List (Nat × Nat))
    (hp : 1 < p)
    (hfuel : p - 1 < 2 ^ F)
    (hprod : (L.map (fun pe => pe.1 ^ pe.2)).prod = p - 1)
    (hprimes : ∀ pe ∈ L, Nat.Prime pe.1)
    (hpow : powMod F a (p - 1) p = 1)
    (hdiv : ∀ pe ∈ L, powMod F a ((p - 1) / pe.1) p ≠ 1) :
    Nat.Prime p := by
  refine lucas_primality p ((a : Nat) : ZMod p) ?_ ?_
  · exact (powMod_eq_one_iff F a (p - 1) p hp hfuel).mp hpow
  · intro q hq hqdvd
    have hmem : q ∈ L.map Prod.fst := by
      apply prime_mem_of_dvd_prodPow q hq L _ hprimes
      rw [hprod]; exact hqdvd
    obtain ⟨pe, hpe, hfst⟩ := List.mem_map.mp hmem
    intro hone
    apply hdiv pe hpe
    have hle : (p - 1) / pe.1 < 2 ^ F :=
      lt_of_le_of_lt (Nat.div_le_self _ _) hfuel
    rw [powMod_eq_one_iff F a _ p hp hle, hfst]
    exact hone

theorem prime_409477 : Nat.Prime 409477 := by
  refine prime_of_cert 19 409477 2 [(2,2),(3,1),(34123,1)]
    (by norm_num) (by norm_num) (by decide) ?_ (by decide) (by decide)
  intro pe hpe
  fin_cases hpe <;> norm_num

theorem prime_14741173 : Nat.Prime 14741173 := by
  refine prime_of_cert 24 14741173 2 [(2,2),(3,2),(409477,1)]
    (by norm_num) (by norm_num) (by decide) ?_ (by decide) (by decide)
  intro pe hpe
  fin_cases hpe <;> first
    | exact prime_409477
    | norm_num

theorem prime_58964693 : Nat.Prime 58964693 := by
  refine prime_of_cert 26 58964693 2 [(2,2),(14741173,1)]
    (by norm_num) (by norm_num) (by decide) ?_ (by decide) (by decide)
  intro pe hpe
  fin_cases hpe <;> first
    | exact prime_14741173
    | norm_num

theorem prime_531581 : Nat.Prime 531581 := by
  refine prime_of_cert 20 531581 2 [(2,2),(5,1),(7,1),(3797,1)]
    (by norm_num) (by norm_num) (by decide) ?_ (by decide) (by decide)
  intro pe hpe
  fin_cases hpe <;> norm_num

theorem prime_1224481 : Nat.Prime 1224481 := by
  refine prime_of_cert 21 1224481 13 [(2,5),(3,1),(5,1),(2551,1)]
    (by norm_num) (by norm_num) (by decide) ?_ (by decide) (by decide)
  intro pe hpe
  fin_cases hpe <;> norm_num

theorem prime_292386187 : Nat.Prime 292386187 := by
  refine prime_of_cert 29 292386187 2 [(2,1),(3,4),(307,1),(5879,1)]
    (by norm_num) (by norm_num) (by decide) ?_ (by decide) (by decide)
  intro pe hpe
  fin_cases hpe <;> norm_num

theorem prime_132667 : Nat.Prime 132667 := by
  refine prime_of_cert 18 132667 5 [(2,1),(3,1),(22111,1)]
    (by norm_num) (by norm_num) (by decide) ?_ (by decide) (by decide)
  intro pe hpe
  fin_cases hpe <;> norm_num

theorem prime_137849 : Nat.Prime 137849 := by
  refine prime_of_cert 18 137849 3 [(2,3),(17231,1)]
    (by norm_num) (by norm_num) (by decide) ?_ (by decide) (by decide)
  intro pe hpe
  fin_cases hpe <;> norm_num

theorem prime_213441916511 : Nat.Prime 213441916511 := by
  refine prime_of_cert 64 213441916511 13 [(2,1),(5,1),(73,1),(292386187,1)]
    (by norm_num) (by norm_num) (by decide) ?_ (by decide) (by decide)
  intro pe hpe
  fin_cases hpe <;> first
    | exact prime_292386187
    | norm_num

theorem prime_1257559732178653 : Nat.Prime 1257559732178653 := by
  refine prime_of_cert 64 1257559732178653 2 [(2,2),(3,1),(7,1),(23,1),(531581,1),(1224481,1)]
    (by norm_num) (by norm_num) (by decide) ?_ (by decide) (by decide)
  intro pe hpe
  fin_cases hpe <;> first
    | exact prime_531581
    | exact prime_1224481
    | norm_num

theorem prime_4434155615661930479 : Nat.Prime 4434155615661930479 := by
  refine prime_of_cert 64 4434155615661930479 17 [(2,1),(41,1),(43,1),(1257559732178653,1)]
    (by norm_num) (by norm_num) (by decide) ?_ (by decide) (by decide)
  intro pe hpe
  fin_cases hpe <;> first
    | exact prime_1257559732178653
    | norm_num

theorem prime_172054593956031949258510691 : Nat.Prime 172054593956031949258510691 := by
  refine prime_of_cert 90 172054593956031949258510691 2
      [(2,1),(5,1),(1361,1),(2851,1),(4434155615661930479,1)]
    (by norm_num) (by norm_num) (by decide) ?_ (by decide) (by decide)
  intro pe hpe
  fin_cases hpe <;> first
    | exact prime_4434155615661930479
    | norm_num

theorem prime_19757330305831588566944191468367130476339 :
    Nat.Prime 19757330305831588566944191468367130476339 := by
  refine prime_of_cert 134 19757330305831588566944191468367130476339 2
      [(2,1),(269,1),(213441916511,1),(172054593956031949258510691,1)]
    (by norm_num) (by norm_num) (by decide) ?_ (by decide) (by decide)
  intro pe hpe
  fin_cases hpe <;> first
    | exact prime_213441916511
    | exact prime_172054593956031949258510691
    | norm_num

theorem prime_276602624281642239937218680557139826668747 :
    Nat.Prime 276602624281642239937218680557139826668747 := by
  refine prime_of_cert 138 276602624281642239937218680557139826668747 2
      [(2,1),(7,1),(19757330305831588566944191468367130476339,1)]
    (by norm_num) (by norm_num) (by decide) ?_ (by decide) (by decide)
  intro pe hpe
  fin_cases hpe <;> first
    | exact prime_19757330305831588566944191468367130476339
    | norm_num

theorem prime_3044861653679985063343 : Nat.Prime 3044861653679985063343 := by
  refine prime_of_cert 72 3044861653679985063343 5
      [(2,1),(3,1),(11,1),(30703,1),(82163,1),(132667,1),(137849,1)]
    (by norm_num) (by norm_num) (by decide) ?_ (by decide) (by decide)
  intro pe hpe
  fin_cases hpe <;> first
    | exact prime_132667
    | exact prime_137849
    | norm_num

theorem prime_198211423230930754013084525763697 :
    Nat.Prime 198211423230930754013084525763697 := by
  refine prime_of_cert 108 198211423230930754013084525763697 5
      [(2,4),(3,1),(23,1),(58964693,1),(3044861653679985063343,1)]
    (by norm_num) (by norm_num) (by decide) ?_ (by decide) (by decide)
  intro pe hpe
  fin_cases hpe <;> first
    | exact prime_58964693
    | exact prime_3044861653679985063343
    | norm_num

theorem ell_prime : Nat.Prime ell := by
  refine prime_of_cert 253 ell 2
      [(2,2),(3,1),(11,1),(198211423230930754013084525763697,1),
       (276602624281642239937218680557139826668747,1)]
    (by norm_num) (by norm_num) (by decide) ?_ (by decide) (by decide)
  intro pe hpe
  fin_cases hpe <;> first
    | exact prime_198211423230930754013084525763697
    | exact prime_276602624281642239937218680557139826668747
    | norm_num

/-!
## Claims
-/

/-- Claim C4: Base64 serialization round-trips for both types: decoding
the Base64 encoding of any valid mask or data value returns the value. -/
theorem claim_C4_base64_roundtrip (m : ZMod ell) (d : point) :
    mask.from_base64 (mask.to_base64 m) = .ok m ∧
    data.from_base64 (data.to_base64 d) = .ok d := by
  have hlt : ell < 256 ^ 32 := by norm_num
  constructor
  · have hv : m.val < 256 ^ 32 := lt_trans (ZMod.val_lt m) hlt
    have hdec : b64Decode (b64Encode (natToBytesLE 32 m.val)) = some (natToBytesLE 32 m.val) :=
      b64_round _ (natToBytesLE_bytes 32 m.val)
    have hval : bytesToNatLE (natToBytesLE 32 m.val) = m.val :=
      bytesToNatLE_natToBytesLE 32 m.val hv
    show mask.from_base64 ⟨b64Encode (natToBytesLE 32 m.val)⟩ = .ok m
    simp only [mask.from_base64, hdec, hval, natToBytesLE_length, ZMod.val_lt m, and_self,
      ite_true, if_pos]
    rw [ZMod.natCast_rightInverse m]
  · have hv : d.log.val < 256 ^ 32 := lt_trans (ZMod.val_lt d.log) hlt
    have hdec : b64Decode (b64Encode (natToBytesLE 32 d.log.val)) =
        some (natToBytesLE 32 d.log.val) :=
      b64_round _ (natToBytesLE_bytes 32 d.log.val)
    have hval : bytesToNatLE (natToBytesLE 32 d.log.val) = d.log.val :=
      bytesToNatLE_natToBytesLE 32 d.log.val hv
    show data.from_base64 ⟨b64Encode (natToBytesLE 32 d.log.val)⟩ = .ok d
    simp only [data.from_base64, hdec, hval, natToBytesLE_length, ZMod.val_lt d.log, and_self,
      ite_true, if_pos]
    rw [ZMod.natCast_rightInverse d.log]

/-- Claim C1, as stated, is false: the zero scalar is a constructible mask
value, masking with it succeeds, but unmasking raises the zero-inversion
error instead of returning the original element. -/
theorem claim_C1_counterexample :
    ¬ (mask.unmask 0 (mask.mask 0 ⟨1⟩) = .ok ⟨1⟩ ∧
       data.truediv (mask.mask 0 ⟨1⟩) 0 = .ok ⟨1⟩) := by
  decide

/-- Claim C1 (amended): for every mask `m` with non-zero scalar value and
every data element `d`, unmasking with `m` a data element previously
masked with `m` returns the original element, both through `mask.unmask`
and through the data-side division form `data.__truediv__`. -/
theorem claim_C1_unmask_of_mask (m : ZMod ell) (d : point) (hm : m ≠ 0) :
    mask.unmask m (mask.mask m d) = .ok d ∧
    data.truediv (mask.mask m d) m = .ok d := by
  haveI : Fact (Nat.Prime ell) := ⟨ell_prime⟩
  obtain ⟨dl⟩ := d
  have hinv : mask.invert m = .ok m⁻¹ := by
    simp [mask.invert, ristretto.scalarInverse, hm]
  have hml : m⁻¹ * (m * dl) = dl := by
    rw [← mul_assoc, inv_mul_cancel₀ hm, one_mul]
  constructor
  · simp [mask.unmask, hinv, Py.map, mask.mask, ristretto.scalarMulPoint, hml]
  · simp [data.truediv, hinv, Py.map, mask.mask, mask.mul, ristretto.scalarMulPoint, hml]

theorem claim_C1_witness :
    (2 : ZMod ell) ≠ 0 ∧
    (mask.unmask 2 (mask.mask 2 ⟨3⟩) = .ok ⟨3⟩ ∧
     data.truediv (mask.mask 2 ⟨3⟩) 2 = .ok ⟨3⟩) :=
  ⟨by decide, claim_C1_unmask_of_mask 2 ⟨3⟩ (by decide)⟩

/-- Claim C2, as stated, is false for the zero submitter mask: blinding
with the zero mask succeeds but unblinding raises the zero-inversion
error. -/
theorem claim_C2_counterexample :
    ¬ (mask.unmask 0 (mask.mask 1 (mask.mask 0 (ristretto.pointHash (strEncode "abc")))) =
        .ok (mask.mask 1 (ristretto.pointHash (strEncode "abc")))) := by
  decide

/-- Claim C2 (amended): for every submitter mask `m` with non-zero scalar
value, every evaluator mask `k`, and every valid input `x`, the full
blind/evaluate/unblind composition recovers the evaluator-keyed PRF
output: `m.unmask(k.mask(m.mask(data.hash(x)))) == k.mask(data.hash(x))`. -/
theorem claim_C2_blind_evaluate_unblind (m k : ZMod ell) (x : PyObj) (d : point)
    (hx : data.hash x = .ok d) (hm : m ≠ 0) :
    mask.unmask m (mask.mask k (mask.mask m d)) = .ok (mask.mask k d) := by
  haveI : Fact (Nat.Prime ell) := ⟨ell_prime⟩
  obtain ⟨dl⟩ := d
  have hinv : mask.invert m = .ok m⁻¹ := by
    simp [mask.invert, ristretto.scalarInverse, hm]
  have hml : m⁻¹ * (k * (m * dl)) = k * dl := by
    calc m⁻¹ * (k * (m * dl)) = m⁻¹ * m * (k * dl) := by ring
      _ = k * dl := by rw [inv_mul_cancel₀ hm, one_mul]
  simp [mask.unmask, hinv, Py.map, mask.mask, ristretto.scalarMulPoint, hml]

theorem claim_C2_witness :
    data.hash (.str "abc") = .ok (ristretto.pointHash (strEncode "abc")) ∧
    (2 : ZMod ell) ≠ 0 ∧
    mask.unmask 2 (mask.mask 5 (mask.mask 2 (ristretto.pointHash (strEncode "abc")))) =
      .ok (mask.mask 5 (ristretto.pointHash (strEncode "abc"))) :=
  ⟨rfl, by decide,
   claim_C2_blind_evaluate_unblind 2 5 (.str "abc") (ristretto.pointHash (strEncode "abc"))
     rfl (by decide)⟩

/-- Claim C3: masking is commutative, both through `mask.mask` and through
the operator form `mask.__mul__`. -/
theorem claim_C3_mask_commutative (m1 m2 : ZMod ell) (d : point) :
    mask.mask m2 (mask.mask m1 d) = mask.mask m1 (mask.mask m2 d) ∧
    mask.mul m2 (mask.mul m1 d) = mask.mul m1 (mask.mul m2 d) := by
  obtain ⟨dl⟩ := d
  constructor <;>
    · simp only [mask.mask, mask.mul, ristretto.scalarMulPoint, point.mk.injEq]
      ring

/-- Claim C5: the `hash` classmethods raise the invalid-input-type error on
every argument that is neither byte-like nor text, and return a value on
every byte-like or text argument. -/
theorem claim_C5_hash_input_type (x : PyObj) :
    (x.isByteLikeOrText = false →
      data.hash x =
        .exn (.invalidInputType ("can only hash a string or bytes-like object to a data object")) ∧
      mask.hash x =
        .exn (.invalidInputType ("can only hash a string or bytes-like object to a mask object"))) ∧
    (x.isByteLikeOrText = true →
      (data.hash x).isOk = true ∧ (mask.hash x).isOk = true) := by
  cases x <;>
    simp [PyObj.isByteLikeOrText, data.hash, mask.hash, PyObj.toByteInput, Py.isOk]

theorem claim_C5_witness :
    ((PyObj.intList [1, 2, 3]).isByteLikeOrText = false ∧
      (data.hash (.intList [1, 2, 3]) =
        .exn (.invalidInputType ("can only hash a string or bytes-like object to a data object")) ∧
       mask.hash (.intList [1, 2, 3]) =
        .exn (.invalidInputType ("can only hash a string or bytes-like object to a mask object")))) ∧
    ((PyObj.str "abc").isByteLikeOrText = true ∧
      ((data.hash (.str "abc")).isOk = true ∧ (mask.hash (.str "abc")).isOk = true)) :=
  ⟨⟨rfl, (claim_C5_hash_input_type (.intList [1, 2, 3])).1 rfl⟩,
   ⟨rfl, (claim_C5_hash_input_type (.str "abc")).2 rfl⟩⟩

/-- Claim C6: inverting the zero mask raises the not-invertible error; for
every non-zero mask, inversion returns the multiplicative inverse in the
scalar field. -/
theorem claim_C6_invert_spec (m : ZMod ell) :
    (m = 0 → mask.invert m = .exn .notInvertible) ∧
    (m ≠ 0 → mask.invert m = .ok m⁻¹ ∧ m⁻¹ * m = 1) := by
  haveI : Fact (Nat.Prime ell) := ⟨ell_prime⟩
  constructor
  · intro h
    simp [mask.invert, ristretto.scalarInverse, h]
  · intro h
    exact ⟨by simp [mask.invert, ristretto.scalarInverse, h], inv_mul_cancel₀ h⟩

theorem claim_C6_witness :
    mask.invert 0 = .exn .notInvertible ∧
    (mask.invert 2 = .ok (2 : ZMod ell)⁻¹ ∧ (2 : ZMod ell)⁻¹ * 2 = 1) :=
  ⟨(claim_C6_invert_spec 0).1 rfl, (claim_C6_invert_spec 2).2 (by decide)⟩

/-- Claim C7: inversion is an involution on invertible (non-zero) masks:
`~(~m) == m`. -/
theorem claim_C7_invert_involution (m : ZMod ell) (hm : m ≠ 0) :
    (mask.invert m).bind mask.invert = .ok m := by
  haveI : Fact (Nat.Prime ell) := ⟨ell_prime⟩
  have h1 : mask.invert m = .ok m⁻¹ := by
    simp [mask.invert, ristretto.scalarInverse, hm]
  have h2 : m⁻¹ ≠ 0 := inv_ne_zero hm
  rw [h1]
  show mask.invert m⁻¹ = .ok m
  simp [mask.invert, ristretto.scalarInverse, h2, inv_inv]

theorem claim_C7_witness :
    (3 : ZMod ell) ≠ 0 ∧ (mask.invert 3).bind mask.invert = .ok 3 :=
  ⟨by decide, claim_C7_invert_involution 3 (by decide)⟩

/-- Claim C8: the data-side division form, `mask.unmask`, invert-then-call,
and the spec's `invert(self) * data` definition all agree: unmasking is
exactly multiplication by the inverse mask. -/
theorem claim_C8_unmask_forms_agree (m : ZMod ell) (d : point) :
    data.truediv d m = mask.unmask m d ∧
    data.truediv d m = (mask.invert m).map (fun mi => mask.call mi d) ∧
    mask.unmask m d = unmaskSpec m d := by
  refine ⟨?_, ?_, ?_⟩ <;>
    · cases h : mask.invert m <;>
        simp [data.truediv, mask.unmask, unmaskSpec, Py.map, h, mask.mul, mask.call, mask.mask]

/-- Claim C10: hashing a text string is identical to hashing its UTF-8
byte encoding, for both `data.hash` and `mask.hash`. -/
theorem claim_C10_hash_str_utf8 (s : String) :
    data.hash (.str s) = data.hash (.bytes (strEncode s)) ∧
    mask.hash (.str s) = mask.hash (.bytes (strEncode s)) :=
  ⟨rfl, rfl⟩

/-- Claim C9: hashing the ASCII string `"abc"` into the group yields
exactly the 32 bytes `5a5dbd5c765abf60b2076133482c1ada189c319034ae0b933f-
4908b3b68d0225` (hex), and hashing it into the scalar field yields exactly
`ba7816bf8f01cfea414140de5dae2223b00361a396177a9cb410ff61f200150d` (hex),
computed through the byte-level model of the external library's two hash
functions. -/
theorem claim_C9_hash_vectors :
    pointHashBytes (strEncode "abc") =
      [0x5a, 0x5d, 0xbd, 0x5c, 0x76, 0x5a, 0xbf, 0x60, 0xb2, 0x07, 0x61, 0x33, 0x48,
       0x2c, 0x1a, 0xda, 0x18, 0x9c, 0x31, 0x90, 0x34, 0xae, 0x0b, 0x93, 0x3f, 0x49,
       0x08, 0xb3, 0xb6, 0x8d, 0x02, 0x25] ∧
    scalarHashBytes (strEncode "abc") =
      [0xba, 0x78, 0x16, 0xbf, 0x8f, 0x01, 0xcf, 0xea, 0x41, 0x41, 0x40, 0xde, 0x5d,
       0xae, 0x22, 0x23, 0xb0, 0x03, 0x61, 0xa3, 0x96, 0x17, 0x7a, 0x9c, 0xb4, 0x10,
       0xff, 0x61, 0xf2, 0x00, 0x15, 0x0d] := by
  constructor <;> decide

end Oprf
